import Mathlib

/-
  Shallow embedding of the core pipeline of the Causal_extractor repository:
  prompt-template substitution, JSON recovery of LLM output, schema-versioned
  normalization, snippet-to-source matching, and the score ledger.
  Strings are modelled as List Char; Python library calls (str.replace,
  str.split, str.strip, re.sub with the concrete patterns used, json.loads)
  are modelled by explicit recursive functions with the same observable
  behaviour on the inputs the program feeds them.
-/

set_option linter.unusedVariables false
set_option maxRecDepth 8192

namespace CausalExtractor

/-- Python whitespace set, as used by str.strip() and the regex class \s. -/
def isPyWs (c : Char) : Bool :=
  c == ' ' || c == '\t' || c == '\n' || c == '\r' || c == '\x0b' || c == '\x0c'

/-- Whitespace accepted by the json.loads scanner between tokens. -/
def isJsonWs (c : Char) : Bool :=
  c == ' ' || c == '\t' || c == '\n' || c == '\r'

def skipJWs (l : List Char) : List Char := l.dropWhile isJsonWs

def ltrimPy (l : List Char) : List Char := l.dropWhile isPyWs

def rtrimPy (l : List Char) : List Char := (l.reverse.dropWhile isPyWs).reverse

/-- Model of Python str.strip() with no arguments. -/
def pyStrip (l : List Char) : List Char := ltrimPy (rtrimPy l)

/-- Model of the Python substring test `pat in l`. -/
def containsSub (pat : List Char) : List Char → Bool
  | [] => pat.isEmpty
  | c :: cs => pat.isPrefixOf (c :: cs) || containsSub pat cs

/-- Fuelled worker for replaceAll; at every call site the fuel exceeds
the input length, and a match consumes at least one character, so the
fuel never runs out. -/
def replaceAllF : Nat → List Char → List Char → List Char → List Char
  | 0, _, _, l => l
  | fuel+1, pat, rep, l =>
    match l with
    | [] => []
    | c :: cs =>
      if !pat.isEmpty && pat.isPrefixOf (c :: cs) then
        rep ++ replaceAllF fuel pat rep ((c :: cs).drop pat.length)
      else
        c :: replaceAllF fuel pat rep cs

/-- Model of Python str.replace(pat, rep) (all non-overlapping
occurrences, scanning left to right).  The sources only call it with
nonempty pat; an empty pat is treated as never matching. -/
def replaceAll (pat rep l : List Char) : List Char :=
  replaceAllF (l.length + 1) pat rep l

/-- Model of Python str.replace(pat, rep, 1) (first occurrence only). -/
def replaceFirst (pat rep : List Char) (l : List Char) : List Char :=
  match l with
  | [] => []
  | c :: cs =>
    if !pat.isEmpty && pat.isPrefixOf (c :: cs) then
      rep ++ (c :: cs).drop pat.length
    else
      c :: replaceFirst pat rep cs

/-- Fuelled worker for splitOnPat, same fuel discipline as
replaceAllF. -/
def splitOnPatF : Nat → List Char → List Char → List (List Char)
  | 0, _, l => [l]
  | fuel+1, pat, l =>
    match l with
    | [] => [[]]
    | c :: cs =>
      if !pat.isEmpty && pat.isPrefixOf (c :: cs) then
        [] :: splitOnPatF fuel pat ((c :: cs).drop pat.length)
      else
        match splitOnPatF fuel pat cs with
        | [] => [[c]]
        | h' :: t => (c :: h') :: t

/-- Model of Python str.split(pat) for a nonempty separator pat. -/
def splitOnPat (pat l : List Char) : List (List Char) :=
  splitOnPatF (l.length + 1) pat l

/-- Join pieces with a separator: the inverse of splitting. -/
def joinWith (sep : List Char) : List (List Char) → List Char
  | [] => []
  | [x] => x
  | x :: y :: t => x ++ sep ++ joinWith sep (y :: t)

/- ------------------------------------------------------------------
   Template substitution (engine/extractor.py lines 123-133 and
   engine/extractor_page.py lines 177-187, identical inline blocks).
   ------------------------------------------------------------------ -/

/-- A character matched by the regex class [A-Za-z0-9_]. -/
def isWordChar (c : Char) : Bool := c.isAlpha || c.isDigit || c == '_'

/-- The literal two-character placeholder. -/
def phEmpty : List Char := ['\x7b', '\x7d']

/-- The literal placeholder whose identifier is the word input. -/
def phInput : List Char := '\x7b' :: ("input").data ++ ['\x7d']

/-- Model of re.search for the pattern of a brace-delimited identifier:
returns the full text of the leftmost match, as m.group(0) does. -/
def findBracePlaceholder : List Char → Option (List Char)
  | [] => none
  | c :: cs =>
    if c == '\x7b' then
      let w := cs.takeWhile isWordChar
      if ¬ w.isEmpty && (cs.drop w.length).head? == some '\x7d' then
        some ('\x7b' :: (w ++ ['\x7d']))
      else findBracePlaceholder cs
    else findBracePlaceholder cs

/-- The prompt substitution block of extractor.py / extractor_page.py:
first the literal empty-brace placeholder via str.replace (all
occurrences), else the literal input placeholder via str.replace (all
occurrences), else the first regex placeholder via str.replace with
count 1, else append the input after a blank line and a label. -/
def substitute (template input : List Char) : List Char :=
  if containsSub phEmpty template then
    replaceAll phEmpty input template
  else if containsSub phInput template then
    replaceAll phInput input template
  else
    match findBracePlaceholder template with
    | some ph => replaceFirst ph input template
    | none => template ++ ('\n' :: '\n' :: ("Input: ").data) ++ input

/- ------------------------------------------------------------------
   JSON values and a model of json.loads.
   ------------------------------------------------------------------ -/

/-- Parsed JSON values.  json.loads converts number tokens to Python
int/float; we keep the validated lexeme instead, which is injective on
tokens.  No claim compares numerically equal but textually distinct
numbers. -/
inductive Json where
  | null : Json
  | bool (b : Bool) : Json
  | num (lexeme : List Char) : Json
  | str (s : List Char) : Json
  | arr (elems : List Json) : Json
  | obj (fields : List (List Char × Json)) : Json

/-- First-match lookup in an association list (Python dict read). -/
def lookupKV {α β : Type} [DecidableEq α] (k : α) : List (α × β) → Option β
  | [] => none
  | (k', v) :: t => if k' = k then some v else lookupKV k t

/-- Python dict write d[k] = v: replace in place if the key exists
(keeping its position), else append at the end (insertion order). -/
def pyDictSet {α β : Type} [DecidableEq α] (k : α) (v : β) : List (α × β) → List (α × β)
  | [] => [(k, v)]
  | (k', v') :: t => if k' = k then (k', v) :: t else (k', v') :: pyDictSet k v t

def hexVal (c : Char) : Option Nat :=
  if c.isDigit then some (c.toNat - ('0').toNat)
  else if 'a' ≤ c && c ≤ 'f' then some (c.toNat - ('a').toNat + 10)
  else if 'A' ≤ c && c ≤ 'F' then some (c.toNat - ('A').toNat + 10)
  else none

/-- Scan the body of a JSON string literal (after the opening quote),
decoding escapes, rejecting raw control characters as the strict
json.loads scanner does.  Surrogate escape pairs are not modelled: a
lone surrogate \x5cuXXXX code fails instead.  Fuel exceeds the input
length at every call site. -/
def parseStringBody : Nat → List Char → List Char → Option (List Char × List Char)
  | 0, _, _ => none
  | fuel+1, l, acc =>
    match l with
    | [] => none
    | c :: cs =>
      if c == '"' then some (acc.reverse, cs)
      else if c == '\\' then
        match cs with
        | [] => none
        | e :: cs2 =>
          if e == '"' then parseStringBody fuel cs2 ('"' :: acc)
          else if e == '\\' then parseStringBody fuel cs2 ('\\' :: acc)
          else if e == '/' then parseStringBody fuel cs2 ('/' :: acc)
          else if e == 'b' then parseStringBody fuel cs2 ('\x08' :: acc)
          else if e == 'f' then parseStringBody fuel cs2 ('\x0c' :: acc)
          else if e == 'n' then parseStringBody fuel cs2 ('\n' :: acc)
          else if e == 'r' then parseStringBody fuel cs2 ('\r' :: acc)
          else if e == 't' then parseStringBody fuel cs2 ('\t' :: acc)
          else if e == 'u' then
            match cs2 with
            | h1 :: h2 :: h3 :: h4 :: cs3 =>
              match hexVal h1, hexVal h2, hexVal h3, hexVal h4 with
              | some a, some b, some c2, some d =>
                let n := ((a * 16 + b) * 16 + c2) * 16 + d
                if n < 55296 || (57344 ≤ n && n < 1114112) then
                  parseStringBody fuel cs3 (Char.ofNat n :: acc)
                else none
              | _, _, _, _ => none
            | _ => none
          else none
      else if c.toNat < 32 then none
      else parseStringBody fuel cs (c :: acc)

def takeDigits (l : List Char) : List Char × List Char :=
  (l.takeWhile Char.isDigit, l.dropWhile Char.isDigit)

/-- Integer part of a JSON number: 0, or a nonzero digit then digits. -/
def parseIntPart : List Char → Option (List Char × List Char)
  | [] => none
  | c :: t =>
    if c == '0' then some (['0'], t)
    else if c.isDigit then
      some (c :: (takeDigits t).1, (takeDigits t).2)
    else none

/-- Optional fraction part: a dot followed by at least one digit. -/
def parseFracPart (l : List Char) : List Char × List Char :=
  match l with
  | '.' :: t =>
    match takeDigits t with
    | ([], _) => ([], l)
    | (ds, r) => ('.' :: ds, r)
  | _ => ([], l)

/-- Optional exponent part: e or E, optional sign, at least one digit. -/
def parseExpPart (l : List Char) : List Char × List Char :=
  match l with
  | c :: t =>
    if c == 'e' || c == 'E' then
      match t with
      | s :: t2 =>
        if s == '+' || s == '-' then
          match takeDigits t2 with
          | ([], _) => ([], l)
          | (ds, r) => (c :: s :: ds, r)
        else
          match takeDigits t with
          | ([], _) => ([], l)
          | (ds, r) => (c :: ds, r)
      | [] => ([], l)
    else ([], l)
  | [] => ([], [])

/-- Lex a JSON number token (the grammar of the json module NUMBER_RE). -/
def parseNumber (l : List Char) : Option (List Char × List Char) :=
  match l with
  | '-' :: t =>
    match parseIntPart t with
    | none => none
    | some (ip, r1) =>
      match parseFracPart r1 with
      | (fp, r2) =>
        match parseExpPart r2 with
        | (ep, r3) => some ('-' :: (ip ++ fp ++ ep), r3)
  | _ =>
    match parseIntPart l with
    | none => none
    | some (ip, r1) =>
      match parseFracPart r1 with
      | (fp, r2) =>
        match parseExpPart r2 with
        | (ep, r3) => some (ip ++ fp ++ ep, r3)

mutual

/-- Parse one JSON value after skipping whitespace. -/
def parseValue : Nat → List Char → Option (Json × List Char)
  | 0, _ => none
  | fuel+1, l =>
    match skipJWs l with
    | [] => none
    | c :: cs =>
      if c == '\x7b' then parseObjectBody fuel cs []
      else if c == '[' then parseArrayBody fuel cs []
      else if c == '"' then
        match parseStringBody (cs.length + 1) cs [] with
        | some (s, r) => some (.str s, r)
        | none => none
      else if (("true").data).isPrefixOf (c :: cs) then some (.bool true, (c :: cs).drop 4)
      else if (("false").data).isPrefixOf (c :: cs) then some (.bool false, (c :: cs).drop 5)
      else if (("null").data).isPrefixOf (c :: cs) then some (.null, (c :: cs).drop 4)
      else
        match parseNumber (c :: cs) with
        | some (lex, r) => some (.num lex, r)
        | none => none

/-- Parse the rest of a JSON array, right after the opening bracket or
after a comma; acc holds the elements already parsed. -/
def parseArrayBody : Nat → List Char → List Json → Option (Json × List Char)
  | 0, _, _ => none
  | fuel+1, l, acc =>
    match skipJWs l with
    | [] => none
    | c :: cs =>
      if c == ']' && acc.isEmpty then some (.arr [], cs)
      else
        match parseValue fuel (c :: cs) with
        | none => none
        | some (v, r) =>
          match skipJWs r with
          | ',' :: r2 => parseArrayBody fuel r2 (acc ++ [v])
          | ']' :: r2 => some (.arr (acc ++ [v]), r2)
          | _ => none

/-- Parse the rest of a JSON object; duplicate keys overwrite as in a
Python dict build. -/
def parseObjectBody : Nat → List Char → List (List Char × Json) → Option (Json × List Char)
  | 0, _, _ => none
  | fuel+1, l, acc =>
    match skipJWs l with
    | [] => none
    | c :: cs =>
      if c == '\x7d' && acc.isEmpty then some (.obj [], cs)
      else if c == '"' then
        match parseStringBody (cs.length + 1) cs [] with
        | none => none
        | some (k, r) =>
          match skipJWs r with
          | ':' :: r2 =>
            match parseValue fuel r2 with
            | none => none
            | some (v, r3) =>
              match skipJWs r3 with
              | ',' :: r4 => parseObjectBody fuel r4 (pyDictSet k v acc)
              | '\x7d' :: r4 => some (.obj (pyDictSet k v acc), r4)
              | _ => none
          | _ => none
      else none

end

/-- Model of json.loads.  loads accepts whitespace around the top-level
value; we strip the surrounding whitespace first and then require the
value to span the remaining text.  (We strip with the Python whitespace
set; the json scanner itself skips only space, tab, newline and
carriage return — the difference is observable only for \x0b or \x0c at
the very ends of the text, which no claim exercises.) -/
def jsonParseL (l : List Char) : Option Json :=
  let t := pyStrip l
  match parseValue (4 * t.length + 8) t with
  | some (v, r) => if (skipJWs r).isEmpty then some v else none
  | none => none

/- ------------------------------------------------------------------
   Structured-output recovery (engine/extractor.py lines 139-169 and
   engine/extractor_page.py lines 201-226, identical logic).
   ------------------------------------------------------------------ -/

/-- The suffix of l starting at its last newline, if any. -/
def dropToLastNL : List Char → Option (List Char)
  | [] => none
  | c :: cs =>
    match dropToLastNL cs with
    | some t => some t
    | none => if c == '\n' then some (c :: cs) else none

/-- The rest of the text after the first block-comment terminator. -/
def findBlockEnd : List Char → Option (List Char)
  | [] => none
  | c :: cs => if c == '*' && cs.head? == some '/' then some (cs.drop 1) else findBlockEnd cs

/-- Model of re.sub removing line and block comments with re.S set, as
the source does: with DOTALL a line comment is greedy and swallows
everything up to the last newline of the remaining text (the lookahead
newline itself is kept); a block comment is non-greedy up to the first
terminator.  Fuel exceeds the input length at every call site. -/
def stripLineBlockComments : Nat → List Char → List Char
  | 0, l => l
  | fuel+1, l =>
    match l with
    | [] => []
    | c :: cs =>
      if c == '/' && cs.head? == some '/' then
        match dropToLastNL (cs.drop 1) with
        | some suffix => stripLineBlockComments fuel suffix
        | none => c :: stripLineBlockComments fuel cs
      else if c == '/' && cs.head? == some '*' then
        match findBlockEnd (cs.drop 1) with
        | some rest => stripLineBlockComments fuel rest
        | none => c :: stripLineBlockComments fuel cs
      else c :: stripLineBlockComments fuel cs

/-- Model of re.sub replacing a comma, optional whitespace and a
closing brace or bracket by that closer (trailing-comma repair). -/
def stripTrailingCommas : Nat → List Char → List Char
  | 0, l => l
  | fuel+1, l =>
    match l with
    | [] => []
    | c :: cs =>
      if c == ',' then
        match cs.dropWhile isPyWs with
        | b :: bs =>
          if b == '\x7d' || b == ']' then b :: stripTrailingCommas fuel bs
          else c :: stripTrailingCommas fuel cs
        | [] => c :: stripTrailingCommas fuel cs
      else c :: stripTrailingCommas fuel cs

/-- Model of str.find (index of first occurrence). -/
def firstIdxOf (c : Char) (l : List Char) : Option Nat := l.findIdx? (· == c)

/-- Model of str.rfind (index of last occurrence). -/
def lastIdxOf (c : Char) (l : List Char) : Option Nat :=
  match l.reverse.findIdx? (· == c) with
  | some i => some (l.length - 1 - i)
  | none => none

/-- Python slice raw[s : e], zero-based, end exclusive. -/
def sliceList (s e : Nat) (l : List Char) : List Char := (l.drop s).take (e - s)

/-- The brace fallback of the candidate extraction. -/
def extractCandidateBrace (raw : List Char) : List Char :=
  match firstIdxOf '\x7b' raw, lastIdxOf '\x7d' raw with
  | some s, some e => if s < e then sliceList s (e + 1) raw else raw
  | _, _ => raw

/-- Best-effort JSON substring: the span from the first opening to the
last closing bracket if that is a nonempty span, else the brace span,
else the whole text. -/
def extractCandidate (raw : List Char) : List Char :=
  match firstIdxOf '[' raw, lastIdxOf ']' raw with
  | some s, some e =>
    if s < e then sliceList s (e + 1) raw
    else extractCandidateBrace raw
  | _, _ => extractCandidateBrace raw

/-- The markdown-fence cleaning step: strip, remove the json fence
marker and the bare fence marker, strip again. -/
def cleanFences (l : List Char) : List Char :=
  pyStrip (replaceAll (("```").data) [] (replaceAll (("```json").data) [] (pyStrip l)))

/-- The whole recovery pipeline: clean fences, try a direct parse, else
extract a candidate substring, strip comments and trailing commas and
try again; none models raising the decode error (UnparsableOutput). -/
def recover_json (l : List Char) : Option Json :=
  let raw := cleanFences l
  match jsonParseL raw with
  | some v => some v
  | none =>
    let candidate := extractCandidate raw
    jsonParseL (stripTrailingCommas (candidate.length + 1)
      (stripLineBlockComments (candidate.length + 1) candidate))

/- ------------------------------------------------------------------
   Snippet-to-source matcher (engine/visualize_page.py lines 514-547
   and evaluation/evaluation.py lines 561-600, identical logic).
   ------------------------------------------------------------------ -/

/-- Model of str.lower(); the corpora of the claims are ASCII. -/
def lowerL (l : List Char) : List Char := l.map Char.toLower

def ellipsisMarker : List Char := ("...").data

/-- Split on the ellipsis marker, strip each piece, keep the nonempty
ones: the segment computation of the matcher. -/
def segmentsOf (raw : List Char) : List (List Char) :=
  ((splitOnPat ellipsisMarker raw).map pyStrip).filter (fun s => !s.isEmpty)

/-- All segments occur case-insensitively in the entry. -/
def segAllIn (segs : List (List Char)) (entry : List Char) : Bool :=
  segs.all (fun s => containsSub (lowerL s) (lowerL entry))

/-- The matching loop: with an ellipsis, the first corpus entry that
contains every segment case-insensitively; without, the first entry
containing the whole snippet; none when no entry qualifies.  Returns
the chosen entry together with the matched segments. -/
def findMatch (raw : List Char) (corpus : List (List Char)) :
    Option (List Char × List (List Char)) :=
  if containsSub ellipsisMarker raw then
    match corpus.find? (fun e => segAllIn (segmentsOf raw) e) with
    | some e => some (e, segmentsOf raw)
    | none => none
  else
    match corpus.find? (fun e => containsSub (lowerL raw) (lowerL e)) with
    | some e => some (e, [raw])
    | none => none

def highlightStyle : List Char :=
  ("background-color: #981ca3; font-weight: bold; color: white; padding: 2px; border-radius: 2px;").data

def spanOpen : List Char := ("<span style=\x27").data ++ highlightStyle ++ ("\x27>").data

def spanClose : List Char := ("</span>").data

/-- Index of the first case-insensitive occurrence of seg (model of
re.compile(re.escape(segment), re.IGNORECASE).search). -/
def searchCIIdx (seg : List Char) : List Char → Option Nat
  | [] => if seg.isEmpty then some 0 else none
  | c :: cs =>
    if (lowerL seg).isPrefixOf (lowerL (c :: cs)) then some 0
    else
      match searchCIIdx seg cs with
      | some i => some (i + 1)
      | none => none

/-- One pass of the highlight loop: find the segment in the
progressively annotated text, record the matched original-casing text,
wrap it in the highlight span. -/
def highlightStep (st : List Char × List (List Char)) (seg : List Char) :
    List Char × List (List Char) :=
  match searchCIIdx seg st.1 with
  | some i =>
    let matched := sliceList i (i + seg.length) st.1
    (st.1.take i ++ spanOpen ++ matched ++ spanClose ++ st.1.drop (i + seg.length),
     st.2 ++ [matched])
  | none => st

/-- The highlight loop over all matched segments, starting from the
matched corpus entry; the second component lists the highlighted spans
in order, each in the entry casing. -/
def highlightSegs (entry : List Char) (segs : List (List Char)) :
    List Char × List (List Char) :=
  segs.foldl highlightStep (entry, [])

/- ------------------------------------------------------------------
   Schema normalizer (evaluation/evaluation.py load_json_data,
   lines 105-194) and the visualize_page auto-detect (lines 134-153).
   ------------------------------------------------------------------ -/

inductive NormError where
  | columnMismatch : NormError
  | unsupportedShape : NormError
  | readError : NormError
deriving DecidableEq

def COLUMNS_V4 : List (List Char) :=
  [("pattern_type").data, ("sentence_type").data, ("marked_type").data,
   ("explicit_type").data, ("relationship").data, ("marker").data,
   ("subject").data, ("object").data, ("source_text").data, ("reasoning").data]

/-- The v4-distinguishing keys tested by the evaluation.py detector. -/
def sixV4Keys : List (List Char) :=
  [("pattern_type").data, ("sentence_type").data, ("marked_type").data,
   ("explicit_type").data, ("relationship").data, ("source_text").data]

def isObjB : Json → Bool
  | .obj _ => true
  | _ => false

def objFields : Json → List (List Char × Json)
  | .obj kvs => kvs
  | _ => []

def isArrB : Json → Bool
  | .arr _ => true
  | _ => false

def arrElems : Json → List Json
  | .arr xs => xs
  | _ => []

/-- The helper get_val of load_json_data: d.get(key) with a JSON null
or a missing key giving the empty string. -/
def get_val (fields : List (List Char × Json)) (key : List Char) : Json :=
  match lookupKV key fields with
  | none => .str []
  | some .null => .str []
  | some v => v

/-- item.get(k1, item.get(k2, empty)): a present key wins even when its
value is null, as dict.get with a default behaves. -/
def getAlias2 (fields : List (List Char × Json)) (k1 k2 : List Char) : Json :=
  match lookupKV k1 fields with
  | some v => v
  | none =>
    match lookupKV k2 fields with
    | some v => v
    | none => .str []

def getAlias3 (fields : List (List Char × Json)) (k1 k2 k3 : List Char) : Json :=
  match lookupKV k1 fields with
  | some v => v
  | none => getAlias2 fields k2 k3

namespace Evaluation

/-- A v4 row: the ten v4 fields in order, missing ones empty. -/
def v4Row (item : Json) : List Json :=
  COLUMNS_V4.map (get_val (objFields item))

/-- A legacy-shaped mapping remapped to the six v3 columns through the
alias chains of the source. -/
def v3AliasRow (item : Json) : List Json :=
  [getAlias2 (objFields item) (("pattern").data) (("pattern_type").data),
   getAlias2 (objFields item) (("causal type").data) (("sentence_type").data),
   getAlias3 (objFields item) (("causal").data) (("causal_statement").data) (("relationship").data),
   getAlias3 (objFields item) (("note").data) (("notes").data) (("reasoning").data),
   getAlias3 (objFields item) (("Named entity/Object in causal").data) (("named_entity").data) (("object").data),
   getAlias3 (objFields item) (("original reference").data) (("original_reference").data) (("source_text").data)]

/-- The pure normalization core of evaluation.py load_json_data: raw
parsed JSON to (rows, schema tag) or a diagnosed failure.  The source
signals errors by an st.error display plus an empty table; readError
stands for the catch-all handler around the body (reached e.g. when a
later element is not a mapping and .get raises). -/
def load_json_data (raw : Json) : Except NormError (List (List Json) × String) :=
  match raw with
  | .arr [] => .ok ([], "v4")
  | .arr (first :: rest) =>
    match first with
    | .arr row0 =>
      if row0.length ≠ 6 then .error .columnMismatch
      else if (first :: rest).all (fun it => isArrB it && (arrElems it).length == 6) then
        .ok ((first :: rest).map arrElems, "v3")
      else .error .readError
    | .obj kvs0 =>
      if (first :: rest).all isObjB then
        if sixV4Keys.any (fun k => (lookupKV k kvs0).isSome) then
          .ok ((first :: rest).map v4Row, "v4")
        else
          .ok ((first :: rest).map v3AliasRow, "v3")
      else .error .readError
    | _ => .error .unsupportedShape
  | _ => .error .unsupportedShape

end Evaluation

/-- One Python membership test key in first_item of the visualize_page
detector: key lookup on a mapping, element equality on a list,
substring on a string, a type error (none) otherwise. -/
def vizKeyIn (k : List Char) : Json → Option Bool
  | .obj kvs => some (lookupKV k kvs).isSome
  | .arr elems =>
    some (elems.any (fun e =>
      match e with
      | .str s => s == k
      | _ => false))
  | .str s => some (containsSub k s)
  | _ => none

/-- The visualize_page schema auto-detect: v4 exactly when the first
element contains pattern_type or sentence_type (short-circuit or);
everything else, including an empty or non-list value, defaults v4. -/
def viz_detect_schema (raw : Json) : Option String :=
  match raw with
  | .arr (first :: _) =>
    match vizKeyIn (("pattern_type").data) first with
    | none => none
    | some true => some ("v4")
    | some false =>
      match vizKeyIn (("sentence_type").data) first with
      | none => none
      | some b => some (if b then "v4" else "v3")
  | _ => some ("v4")

/- ------------------------------------------------------------------
   Score ledger (evaluation.py lines 56-99 and 714-728;
   visualize_page.py lines 56-131).
   ------------------------------------------------------------------ -/

/-- A stored score entry, in any of the three historical shapes: a bare
scalar score string, or a mapping of string fields (single score field
or the full four-plus-notes record). -/
inductive ScoreEntryStored where
  | scalar (s : String) : ScoreEntryStored
  | mapping (fields : List (String × String)) : ScoreEntryStored
deriving DecidableEq

/-- The decoded score file: file name to (unique id to entry), with
Python dict insertion order. -/
abbrev Ledger := List (String × List (String × ScoreEntryStored))

namespace Evaluation

/-- evaluation.py get_score_and_notes: upgrades the bare-scalar and the
single-score-field shapes to the current four-plus-notes shape. -/
def get_score_and_notes (all_scores : Ledger) (file_name uid : String) :
    (String × String × String × String) × String :=
  let fileScores := (lookupKV file_name all_scores).getD []
  let entry := (lookupKV uid fileScores).getD (.mapping [])
  match entry with
  | .scalar s => ((s, "", "", ""), "")
  | .mapping kvs =>
    if (lookupKV ("score") kvs).isSome && !(lookupKV ("semantic_fidelity") kvs).isSome then
      (((lookupKV ("score") kvs).getD "", "", "", ""), (lookupKV ("notes") kvs).getD "")
    else
      (((lookupKV ("semantic_fidelity") kvs).getD "",
        (lookupKV ("schema_accuracy") kvs).getD "",
        (lookupKV ("explicit_accuracy") kvs).getD "",
        (lookupKV ("structural_integrity") kvs).getD ""),
       (lookupKV ("notes") kvs).getD "")

/-- The radio widgets give an em-dash for unset; the save handler
stores the empty string instead. -/
def dashToEmpty (s : String) : String := if s = "—" then "" else s

/-- The save-button handler of evaluation.py (lines 714-728): build the
full five-field record from the current widgets and write it at
(file_name, uid), creating the file bucket when absent. -/
def save_button_handler (all_scores : Ledger)
    (file_name uid semantic schemaScore explicitScore structural notes : String) : Ledger :=
  pyDictSet file_name
    (pyDictSet uid
      (.mapping
        [("semantic_fidelity", dashToEmpty semantic),
         ("schema_accuracy", dashToEmpty schemaScore),
         ("explicit_accuracy", dashToEmpty explicitScore),
         ("structural_integrity", dashToEmpty structural),
         ("notes", notes)])
      ((lookupKV file_name all_scores).getD []))
    all_scores

end Evaluation

namespace VisualizePage

/-- visualize_page.py get_score_and_notes: reads the sf/sa/ea/si/notes
fields of a mapping entry; a bare scalar entry makes row_data.get raise
(str has no attribute get), modelled as none. -/
def get_score_and_notes (all_scores : Ledger) (file_name uid : String) :
    Option (String × String × String × String × String) :=
  match lookupKV file_name all_scores with
  | none => some ("", "", "", "", "")
  | some fileScores =>
    match lookupKV uid fileScores with
    | none => some ("", "", "", "", "")
    | some (.scalar _) => none
    | some (.mapping kvs) =>
      some ((lookupKV ("sf") kvs).getD "",
            (lookupKV ("sa") kvs).getD "",
            (lookupKV ("ea") kvs).getD "",
            (lookupKV ("si") kvs).getD "",
            (lookupKV ("notes") kvs).getD "")

/-- visualize_page.py set_score_and_notes: write the full five-field
record at (file_name, uid). -/
def set_score_and_notes (all_scores : Ledger)
    (file_name uid sf sa ea si notes : String) : Ledger :=
  pyDictSet file_name
    (pyDictSet uid
      (.mapping [("sf", sf), ("sa", sa), ("ea", ea), ("si", si), ("notes", notes)])
      ((lookupKV file_name all_scores).getD []))
    all_scores

end VisualizePage

/-- Read an entry of the ledger at a (file, id) key. -/
def ledgerGet (all_scores : Ledger) (file_name uid : String) : Option ScoreEntryStored :=
  match lookupKV file_name all_scores with
  | none => none
  | some fileScores => lookupKV uid fileScores

/- ------------------------------------------------------------------
   The generation handler state (extractor.py lines 136-189,
   extractor_page.py lines 189-245): parse before write and log.
   ------------------------------------------------------------------ -/

/-- The durable state the generation handler can touch: the output
files and the generation log rows (template, input, output filename). -/
structure GenState where
  files : List (String × Json)
  log : List (String × String × String)

/-- The generation step after the model responded with raw text: on a
parse failure the decode error is caught, an error is displayed and
nothing is written; on success the output file is written and a log
row appended. -/
def generation_step (template input raw filename : String) (s : GenState) : GenState :=
  match recover_json raw.data with
  | none => s
  | some v => GenState.mk (s.files ++ [(filename, v)]) (s.log ++ [(template, input, filename)])

/- ------------------------------------------------------------------
   General lemmas about the string models.
   ------------------------------------------------------------------ -/

theorem containsSub_eq_true_iff {pat l : List Char} :
    containsSub pat l = true ↔ pat <:+: l := by
  induction l with
  | nil =>
    simp only [containsSub, List.isEmpty_iff, List.infix_nil]
  | cons c cs ih =>
    simp only [containsSub, Bool.or_eq_true, ih, List.isPrefixOf_iff_prefix,
      List.infix_cons_iff]

theorem replaceAllF_id_of_not_contains :
    ∀ (fuel : Nat) (pat rep l : List Char), containsSub pat l = false →
      replaceAllF fuel pat rep l = l := by
  intro fuel
  induction fuel with
  | zero => intro pat rep l h; rfl
  | succ n ih =>
    intro pat rep l h
    match l with
    | [] => rfl
    | c :: cs =>
      simp only [containsSub, Bool.or_eq_false_iff] at h
      simp only [replaceAllF, h.1, Bool.and_false, Bool.false_eq_true, if_false,
        ih pat rep cs h.2]

theorem replaceAll_id_of_not_contains (pat rep l : List Char)
    (h : containsSub pat l = false) : replaceAll pat rep l = l :=
  replaceAllF_id_of_not_contains _ pat rep l h

theorem splitOnPatF_ne_nil :
    ∀ (fuel : Nat) (pat l : List Char), splitOnPatF fuel pat l ≠ [] := by
  intro fuel
  induction fuel with
  | zero => intro pat l; simp [splitOnPatF]
  | succ n ih =>
    intro pat l
    match l with
    | [] => simp [splitOnPatF]
    | c :: cs =>
      simp only [splitOnPatF]
      by_cases h : (!pat.isEmpty && pat.isPrefixOf (c :: cs)) = true
      · simp [h]
      · simp only [Bool.not_eq_true] at h
        simp only [h, Bool.false_eq_true, if_false]
        cases hs : splitOnPatF n pat cs with
        | nil => simp
        | cons a t => simp

theorem joinWith_cons_cons (sep c : _) (h t : _) :
    joinWith sep ((c :: h) :: t) = c :: joinWith sep (h :: t) := by
  cases t with
  | nil => rfl
  | cons y t' => simp [joinWith]

theorem replaceAllF_eq_joinWith :
    ∀ (fuel : Nat) (pat rep l : List Char),
      replaceAllF fuel pat rep l = joinWith rep (splitOnPatF fuel pat l) := by
  intro fuel
  induction fuel with
  | zero => intro pat rep l; rfl
  | succ n ih =>
    intro pat rep l
    match l with
    | [] => rfl
    | c :: cs =>
      simp only [replaceAllF, splitOnPatF]
      by_cases h : (!pat.isEmpty && pat.isPrefixOf (c :: cs)) = true
      · simp only [h, if_true]
        cases hs : splitOnPatF n pat ((c :: cs).drop pat.length) with
        | nil => exact absurd hs (splitOnPatF_ne_nil n pat _)
        | cons a t =>
          simp only [joinWith, ih pat rep ((c :: cs).drop pat.length), hs,
            List.nil_append]
      · simp only [h, Bool.false_eq_true, if_false]
        cases hs : splitOnPatF n pat cs with
        | nil => exact absurd hs (splitOnPatF_ne_nil n pat cs)
        | cons a t =>
          rw [joinWith_cons_cons, ← hs, ← ih pat rep cs]

theorem replaceAll_eq_joinWith (pat rep l : List Char) :
    replaceAll pat rep l = joinWith rep (splitOnPat pat l) :=
  replaceAllF_eq_joinWith _ pat rep l

theorem rtrimPy_eq_rdropWhile (l : List Char) :
    rtrimPy l = List.rdropWhile isPyWs l := rfl

theorem pyStrip_infix_self (l : List Char) : pyStrip l <:+: l := by
  have h1 : pyStrip l <:+ rtrimPy l := List.dropWhile_suffix _
  have h2 : rtrimPy l <+: l := by
    rw [rtrimPy_eq_rdropWhile]; exact List.rdropWhile_prefix _ _
  exact (h1.isInfix).trans h2.isInfix

theorem dropWhile_append_self_left {p : Char → Bool} {x y : List Char} (hx : x ≠ [])
    (h : List.dropWhile p (x ++ y) = x ++ y) : List.dropWhile p x = x := by
  rw [List.dropWhile_append] at h
  by_cases he : (List.dropWhile p x).isEmpty
  · rw [if_pos he] at h
    have hlen := congrArg List.length h
    have hle : (List.dropWhile p y).length ≤ y.length :=
      (List.dropWhile_sublist _).length_le
    simp only [List.length_append] at hlen
    have hxpos : 0 < x.length := List.length_pos.mpr hx
    omega
  · rw [if_neg he] at h
    exact List.append_cancel_right h

/-- Removing leading whitespace keeps a list free of trailing
whitespace. -/
theorem rtrimPy_ltrimPy_of_rtrimPy (A : List Char) (hA : rtrimPy A = A) :
    rtrimPy (ltrimPy A) = ltrimPy A := by
  have hrev : List.dropWhile isPyWs A.reverse = A.reverse := by
    have := congrArg List.reverse hA
    rwa [rtrimPy, List.reverse_reverse] at this
  by_cases hD : ltrimPy A = []
  · rw [hD]; rfl
  · have hsplit : A = A.takeWhile isPyWs ++ ltrimPy A :=
      (List.takeWhile_append_dropWhile isPyWs A).symm
    have hrev2 : A.reverse = (ltrimPy A).reverse ++ (A.takeWhile isPyWs).reverse := by
      conv_lhs => rw [hsplit]
      rw [List.reverse_append]
    have hDne : (ltrimPy A).reverse ≠ [] := by
      simpa using hD
    have hdrop : List.dropWhile isPyWs (ltrimPy A).reverse = (ltrimPy A).reverse := by
      apply dropWhile_append_self_left hDne
      rw [← hrev2]
      exact hrev
    rw [rtrimPy, hdrop, List.reverse_reverse]

theorem pyStrip_idempotent (l : List Char) : pyStrip (pyStrip l) = pyStrip l := by
  show ltrimPy (rtrimPy (ltrimPy (rtrimPy l))) = ltrimPy (rtrimPy l)
  have hidem : rtrimPy (rtrimPy l) = rtrimPy l := by
    rw [rtrimPy_eq_rdropWhile, rtrimPy_eq_rdropWhile]
    exact List.rdropWhile_idempotent _ _
  rw [rtrimPy_ltrimPy_of_rtrimPy (rtrimPy l) hidem]
  show List.dropWhile isPyWs (List.dropWhile isPyWs (rtrimPy l)) = _
  rw [List.dropWhile_idempotent]
  rfl

theorem jsonParseL_pyStrip (l : List Char) :
    jsonParseL (pyStrip l) = jsonParseL l := by
  simp only [jsonParseL, pyStrip_idempotent]

theorem not_contains_of_part {pat x l : List Char} (hinf : x <:+: l)
    (h : containsSub pat l = false) : containsSub pat x = false := by
  by_contra hx
  rw [Bool.not_eq_false, containsSub_eq_true_iff] at hx
  rw [← Bool.not_eq_true, containsSub_eq_true_iff] at h
  exact h (hx.trans hinf)

/-- The json fence marker contains the bare fence marker, so a text
with no bare fence marker has no json fence marker either. -/
theorem not_contains_fenceJson {l : List Char}
    (h : containsSub (("```").data) l = false) :
    containsSub (("```json").data) l = false := by
  by_contra hx
  rw [Bool.not_eq_false, containsSub_eq_true_iff] at hx
  rw [← Bool.not_eq_true, containsSub_eq_true_iff] at h
  exact h (((List.prefix_append (("```").data) (("json").data)).isInfix).trans hx)

theorem cleanFences_of_not_contains {l : List Char}
    (h : containsSub (("```").data) l = false) : cleanFences l = pyStrip l := by
  have hstrip : containsSub (("```").data) (pyStrip l) = false :=
    not_contains_of_part (pyStrip_infix_self l) h
  unfold cleanFences
  rw [replaceAll_id_of_not_contains _ _ _ (not_contains_fenceJson hstrip),
    replaceAll_id_of_not_contains _ _ _ hstrip, pyStrip_idempotent]

/- Ledger lemmas. -/

theorem lookupKV_pyDictSet_self {α β : Type} [DecidableEq α] (k : α) (v : β) :
    ∀ m : List (α × β), lookupKV k (pyDictSet k v m) = some v := by
  intro m
  induction m with
  | nil => simp [pyDictSet, lookupKV]
  | cons p t ih =>
    obtain ⟨k', v'⟩ := p
    by_cases h : k' = k
    · simp [pyDictSet, lookupKV, h]
    · simp [pyDictSet, lookupKV, h, ih]

theorem lookupKV_pyDictSet_ne {α β : Type} [DecidableEq α] {k k' : α} (v : β)
    (hne : k' ≠ k) :
    ∀ m : List (α × β), lookupKV k' (pyDictSet k v m) = lookupKV k' m := by
  intro m
  induction m with
  | nil => simp [pyDictSet, lookupKV, Ne.symm hne]
  | cons p t ih =>
    obtain ⟨k0, v0⟩ := p
    by_cases h : k0 = k
    · subst h
      simp [pyDictSet, lookupKV, Ne.symm hne]
    · simp [pyDictSet, lookupKV, h, ih]

/- ------------------------------------------------------------------
   Claim theorems.
   ------------------------------------------------------------------ -/

/-- Claim C1, counterexample: the claim says only the first occurrence
of the empty-brace placeholder is replaced, the later ones left alone;
on the template a-brace-brace-b-brace-brace-c with input X the code
replaces both occurrences, yielding aXbXc and not the aXb-brace-brace-c
the claim requires. -/
theorem claim_C1_counterexample :
    substitute (("a\x7b\x7db\x7b\x7dc").data) (("X").data) = ("aXbXc").data ∧
    ("aXbXc").data ≠ ("aXb\x7b\x7dc").data :=
  ⟨by rfl, by decide⟩

/-- Claim C1 (amended): for every template containing the literal
empty-brace placeholder, substitute replaces every occurrence of the
placeholder with the input: the result is the template split on the
placeholder and rejoined with the input as separator. -/
theorem claim_C1 (template input : List Char)
    (h : containsSub phEmpty template = true) :
    substitute template input = joinWith input (splitOnPat phEmpty template) := by
  unfold substitute
  rw [if_pos h]
  exact replaceAll_eq_joinWith _ _ _

/-- Claim C1, witness at a concrete template with two placeholders. -/
theorem claim_C1_witness :
    containsSub phEmpty (("a\x7b\x7db\x7b\x7dc").data) = true ∧
    substitute (("a\x7b\x7db\x7b\x7dc").data) (("Y").data) =
      joinWith (("Y").data) (splitOnPat phEmpty (("a\x7b\x7db\x7b\x7dc").data)) :=
  ⟨by rfl, claim_C1 _ _ (by rfl)⟩

/-- Claim C2, counterexample: the claim says an all-ellipsis snippet
yields no match; on snippet consisting of the ellipsis marker alone and
the one-entry corpus hello, the code chooses that entry (the emptied
segment list makes the containment check vacuously true). -/
theorem claim_C2_counterexample :
    findMatch (("...").data) [("hello").data] = some ((("hello").data), []) ∧
    (findMatch (("...").data) [("hello").data]).isSome = true :=
  ⟨by rfl, by rfl⟩

/-- Claim C2 (amended): for every snippet containing the ellipsis
marker whose segments all vanish after trimming, and every nonempty
corpus, the matcher vacuously chooses the first corpus entry, with an
empty matched-segment list — it does not degrade to no match. -/
theorem claim_C2 (raw : List Char) (corpus : List (List Char)) (e : List Char)
    (rest : List (List Char)) (h1 : containsSub ellipsisMarker raw = true)
    (h2 : segmentsOf raw = []) (h3 : corpus = e :: rest) :
    findMatch raw corpus = some (e, []) := by
  subst h3
  unfold findMatch
  rw [if_pos h1, h2]
  simp [segAllIn, List.find?_cons]

/-- Claim C2, witness at a two-ellipsis all-whitespace snippet. -/
theorem claim_C2_witness :
    findMatch (("... ...").data) [("abc").data] = some ((("abc").data), []) :=
  claim_C2 _ _ _ _ (by rfl) (by rfl) rfl

/-- Claim C3: on a ledger holding the oldest bare-scalar entry shape at
a key, the visualize_page reader fails (row_data.get on a str raises),
while the evaluation.py reader upgrades it to the current shape with
the scalar as the first rubric score and everything else empty. -/
theorem claim_C3_code_behaviour :
    VisualizePage.get_score_and_notes [(("r.json"), [(("0"), .scalar ("3"))])]
      ("r.json") ("0") = none ∧
    Evaluation.get_score_and_notes [(("r.json"), [(("0"), .scalar ("3"))])]
      ("r.json") ("0") = ((("3"), (""), (""), ("")), ("")) :=
  ⟨rfl, rfl⟩

/-- Claim C4: saving is a full replace: after a save at a key, the
stored entry at that key is exactly the five-field record built from
the submitted values — for any prior ledger content, so notes submitted
empty overwrite nonempty prior notes; both the visualize_page
set_score_and_notes and the evaluation.py save-button handler do
this. -/
theorem claim_C4 :
    (∀ (all_scores : Ledger) (f uid sf sa ea si notes : String),
      ledgerGet (VisualizePage.set_score_and_notes all_scores f uid sf sa ea si notes)
          f uid =
        some (.mapping [(("sf"), sf), (("sa"), sa), (("ea"), ea), (("si"), si),
          (("notes"), notes)])) ∧
    (∀ (all_scores : Ledger) (f uid s1 s2 s3 s4 notes : String),
      ledgerGet (Evaluation.save_button_handler all_scores f uid s1 s2 s3 s4 notes)
          f uid =
        some (.mapping
          [(("semantic_fidelity"), Evaluation.dashToEmpty s1),
           (("schema_accuracy"), Evaluation.dashToEmpty s2),
           (("explicit_accuracy"), Evaluation.dashToEmpty s3),
           (("structural_integrity"), Evaluation.dashToEmpty s4),
           (("notes"), notes)])) := by
  constructor
  · intro all_scores f uid sf sa ea si notes
    unfold VisualizePage.set_score_and_notes ledgerGet
    rw [lookupKV_pyDictSet_self]
    exact lookupKV_pyDictSet_self _ _ _
  · intro all_scores f uid s1 s2 s3 s4 notes
    unfold Evaluation.save_button_handler ledgerGet
    rw [lookupKV_pyDictSet_self]
    exact lookupKV_pyDictSet_self _ _ _

/-- Saving at one key reads every other key unchanged (shared core of
the frame property). -/
theorem ledgerGet_saveAt_ne (all_scores : Ledger) (f uid : String)
    (e : ScoreEntryStored) (f' uid' : String) (h : f' ≠ f ∨ uid' ≠ uid) :
    ledgerGet (pyDictSet f (pyDictSet uid e ((lookupKV f all_scores).getD []))
      all_scores) f' uid' = ledgerGet all_scores f' uid' := by
  by_cases hf : f' = f
  · subst hf
    cases h with
    | inl hff => exact absurd rfl hff
    | inr hu =>
      unfold ledgerGet
      rw [lookupKV_pyDictSet_self]
      cases hall : lookupKV f' all_scores with
      | none =>
        simp only [Option.getD]
        rw [lookupKV_pyDictSet_ne _ hu]
        rfl
      | some fm =>
        simp only [Option.getD]
        rw [lookupKV_pyDictSet_ne _ hu]
  · unfold ledgerGet
    rw [lookupKV_pyDictSet_ne _ hf]

/-- Claim C10: a save touches only its own (file, id) key: at every
other key, through either save path, the ledger reads exactly as
before. -/
theorem claim_C10 (all_scores : Ledger)
    (f uid sf sa ea si notes s1 s2 s3 s4 n2 f' uid' : String)
    (h : f' ≠ f ∨ uid' ≠ uid) :
    ledgerGet (VisualizePage.set_score_and_notes all_scores f uid sf sa ea si notes)
        f' uid' = ledgerGet all_scores f' uid' ∧
    ledgerGet (Evaluation.save_button_handler all_scores f uid s1 s2 s3 s4 n2)
        f' uid' = ledgerGet all_scores f' uid' :=
  ⟨ledgerGet_saveAt_ne all_scores f uid _ f' uid' h,
   ledgerGet_saveAt_ne all_scores f uid _ f' uid' h⟩

/-- Claim C10, witness: a concrete save leaves a sibling id and a
second file unchanged. -/
theorem claim_C10_witness :
    ledgerGet (VisualizePage.set_score_and_notes
        [(("a.json"), [(("0"), .scalar ("2")), (("1"), .scalar ("5"))])]
        ("a.json") ("0") ("4") ("") ("") ("") (""))
      ("a.json") ("1") =
      ledgerGet [(("a.json"), [(("0"), .scalar ("2")), (("1"), .scalar ("5"))])]
        ("a.json") ("1") ∧
    ledgerGet (Evaluation.save_button_handler
        [(("a.json"), [(("0"), .scalar ("2")), (("1"), .scalar ("5"))])]
        ("a.json") ("0") ("4") ("") ("") ("") (""))
      ("a.json") ("1") =
      ledgerGet [(("a.json"), [(("0"), .scalar ("2")), (("1"), .scalar ("5"))])]
        ("a.json") ("1") :=
  claim_C10 _ _ _ _ _ _ _ _ _ _ _ _ _ _ _ (Or.inr (by decide))

/-- Claim C7: a legacy list-shaped first row whose length is not the
six legacy columns makes normalization fail with the column-mismatch
diagnosis and produce no rows. -/
theorem claim_C7 (row0 : List Json) (rest : List Json) (h : row0.length ≠ 6) :
    Evaluation.load_json_data (.arr (.arr row0 :: rest)) = .error .columnMismatch := by
  unfold Evaluation.load_json_data
  simp [h]

/-- Claim C7, witness: a five-column legacy row fails. -/
theorem claim_C7_witness :
    Evaluation.load_json_data
        (.arr [.arr [.str [], .str [], .str [], .str [], .str []]]) =
      .error .columnMismatch :=
  claim_C7 _ _ (by decide)

/-- Claim C6, counterexample: the claim asks that any of the six
v4-distinguishing keys trigger v4 treatment in both normalizers, but
the visualize_page auto-detect tests only pattern_type and
sentence_type: a first element whose only v4 key is relationship is
tagged legacy v3 there. -/
theorem claim_C6_counterexample :
    viz_detect_schema (.arr [.obj [((("relationship").data), .str (("x").data))]]) =
      some ("v3") ∧
    viz_detect_schema (.arr [.obj [((("relationship").data), .str (("x").data))]]) ≠
      some ("v4") :=
  ⟨rfl, by decide⟩

/-- Claim C6 (amended): in the evaluation.py normalizer, an array of
mappings whose first element has any of the six v4-distinguishing keys
is normalized entirely as v4 — every element projected to the ten v4
fields — and a key missing from any row reads as the empty string
instead of failing. -/
theorem claim_C6 (kvs0 : List (List Char × Json)) (rest : List Json)
    (hdetect : (sixV4Keys.any (fun k => (lookupKV k kvs0).isSome)) = true)
    (hobj : (Json.obj kvs0 :: rest).all isObjB = true) :
    Evaluation.load_json_data (.arr (.obj kvs0 :: rest)) =
      .ok ((Json.obj kvs0 :: rest).map Evaluation.v4Row, "v4") ∧
    ∀ (fields : List (List Char × Json)) (key : List Char),
      lookupKV key fields = none → get_val fields key = .str [] := by
  constructor
  · unfold Evaluation.load_json_data
    simp [hobj, hdetect]
  · intro fields key hk
    unfold get_val
    rw [hk]

/-- Claim C6, witness: a two-row array whose first row carries only
source_text and whose second row is empty normalizes as v4. -/
theorem claim_C6_witness :
    Evaluation.load_json_data
        (.arr (Json.obj [((("source_text").data), Json.str [])] :: [Json.obj []])) =
      .ok ((Json.obj [((("source_text").data), Json.str [])] :: [Json.obj []]).map
        Evaluation.v4Row, "v4") ∧
    (∀ (fields : List (List Char × Json)) (key : List Char),
      lookupKV key fields = none → get_val fields key = .str []) :=
  claim_C6 _ _ (by rfl) (by rfl)

/-- Claim C5, counterexample: the claim says already-valid JSON text is
returned unchanged, but the fence-cleaning str.replace also fires
inside string literals: the valid JSON array holding the three-backtick
string recovers to an array holding the empty string instead. -/
theorem claim_C5_counterexample :
    jsonParseL (("[\"```\"]").data) = some (.arr [.str (("```").data)]) ∧
    recover_json (("[\"```\"]").data) = some (.arr [.str []]) ∧
    Json.arr [.str (("```").data)] ≠ Json.arr [.str []] := by
  refine ⟨by rfl, by rfl, ?_⟩
  intro h
  injection h with h1
  injection h1 with h2 h3
  injection h2 with h4
  exact absurd h4 (by decide)

/-- Claim C5 (amended): for every raw text that parses as JSON and
contains no fence-marker substring, recovery returns exactly the parsed
value: the cleaning pass is the identity up to surrounding whitespace
and the direct-parse strategy returns first. -/
theorem claim_C5 (t : List Char) (v : Json)
    (hfence : containsSub (("```").data) t = false)
    (hparse : jsonParseL t = some v) :
    recover_json t = some v := by
  have h1 : jsonParseL (cleanFences t) = some v := by
    rw [cleanFences_of_not_contains hfence, jsonParseL_pyStrip, hparse]
  simp only [recover_json]
  rw [h1]

/-- Claim C5, witness: a plain fence-free array round-trips. -/
theorem claim_C5_witness :
    containsSub (("```").data) (("[4, 5]").data) = false ∧
    jsonParseL (("[4, 5]").data) = some (.arr [.num ['4'], .num ['5']]) ∧
    recover_json (("[4, 5]").data) = some (.arr [.num ['4'], .num ['5']]) :=
  ⟨by rfl, by rfl, claim_C5 _ _ (by rfl) (by rfl)⟩

/-- Claim C8: with an ellipsis snippet, a chosen entry contains every
nonempty trimmed segment case-insensitively and is the first corpus
entry doing so; and on the concrete cat corpus the entry is matched
with one highlight span per segment, each span in the corpus casing. -/
theorem claim_C8 :
    (∀ (raw : List Char) (corpus : List (List Char)) (e : List Char)
        (segs : List (List Char)),
      containsSub ellipsisMarker raw = true →
      findMatch raw corpus = some (e, segs) →
      segs = segmentsOf raw ∧
      segAllIn (segmentsOf raw) e = true ∧
      ∃ preceding later, corpus = preceding ++ e :: later ∧
        ∀ x ∈ preceding, segAllIn (segmentsOf raw) x = false) ∧
    (findMatch (("The cat sat ... ran away").data)
        [("The cat sat. The cat then ran away.").data] =
      some ((("The cat sat. The cat then ran away.").data),
        [("The cat sat").data, ("ran away").data]) ∧
     (highlightSegs (("The cat sat. The cat then ran away.").data)
        [("The cat sat").data, ("ran away").data]).2 =
      [("The cat sat").data, ("ran away").data]) := by
  constructor
  · intro raw corpus e segs h1 h2
    unfold findMatch at h2
    rw [if_pos h1] at h2
    cases hf : corpus.find? (fun x => segAllIn (segmentsOf raw) x) with
    | none => rw [hf] at h2; exact absurd h2 (by simp)
    | some e' =>
      rw [hf] at h2
      injection h2 with h3
      have he : e' = e := congrArg Prod.fst h3
      have hs : segmentsOf raw = segs := congrArg Prod.snd h3
      subst he
      rcases List.find?_eq_some.mp hf with ⟨hp, as, bs, hsplit, hall⟩
      refine ⟨hs.symm, hp, as, bs, hsplit, fun x hx => ?_⟩
      have := hall x hx
      simpa using this
  · exact ⟨by rfl, by rfl⟩

/-- Claim C8, witness: instantiating the containment and
first-match-wins property on a two-entry corpus where the second entry
is the match. -/
theorem claim_C8_witness :
    ([("ab").data, ("cd").data] : List (List Char)) =
      segmentsOf (("ab ... cd").data) ∧
    segAllIn (segmentsOf (("ab ... cd").data)) (("xx ab yy cd").data) = true ∧
    ∃ preceding later,
      ([("zz").data, ("xx ab yy cd").data] : List (List Char)) =
        preceding ++ (("xx ab yy cd").data) :: later ∧
      ∀ x ∈ preceding, segAllIn (segmentsOf (("ab ... cd").data)) x = false :=
  claim_C8.1 _ _ _ _ (by rfl) (by rfl)

/-- Claim C9: when every recovery strategy fails on the raw response,
the generation step leaves the persisted state untouched: no output
file is written and no log row is appended. -/
theorem claim_C9 (template input raw filename : String) (s : GenState)
    (h : recover_json raw.data = none) :
    generation_step template input raw filename s = s := by
  unfold generation_step
  rw [h]

/-- Claim C9, witness: the unparsable response leaves a concrete state
unchanged. -/
theorem claim_C9_witness :
    recover_json (("not json at all").data) = none ∧
    generation_step ("tpl") ("inp") ("not json at all") ("out.json")
        (GenState.mk [(("old.json"), Json.null)] [(("t"), ("i"), ("old.json"))]) =
      GenState.mk [(("old.json"), Json.null)] [(("t"), ("i"), ("old.json"))] :=
  ⟨by rfl, claim_C9 _ _ _ _ _ (by rfl)⟩

end CausalExtractor
